import Mathlib

/-!
Verification of the RAG retrieval/ranking core and the topic-extraction
batch engine of the gladly-conversation-analyzer repository.

The Lean definitions below are shallow embeddings of the Python source:

* `backend/models/conversation.py` — `ConversationItem` and its derived
  `searchable_text`;
* `backend/services/conversation_service.py` and
  `backend/services/survey_service.py` — the concept lexicons and the
  `semantic_search_*` scoring loop;
* `backend/services/rag_service.py` — `_plan_query` and `_retrieve_data`
  for the conversation path;
* `backend/services/survicate_rag_service.py` — `_retrieve_data` for the
  survey path (minimum-yield fallback, time filter, dedup);
* `backend/utils/helpers.py` — `extract_json_from_text`;
* `backend/services/topic_extraction_service.py` — topic validation,
  the retry/backoff loop of `extract_conversation_metadata`, and the
  batch driver `batch_extract_topics`;
* `backend/services/topic_storage_service.py` — load/save normalization
  of persisted topic records.

External collaborators (the LLM client, `datetime` parsing, `json.loads`)
are modelled as explicit parameters: an LLM interaction is a value of an
outcome type, and the stdlib parsers are function arguments, so every
repository-side branch is transcribed while the black boxes stay abstract.
Python string containment (`in`), truthiness and `str.lower()` are
modelled by executable helpers on `String`.
-/

/-- Python `needle in hay` on strings starts here: prefix test on char lists. -/
def startsWithChars : List Char → List Char → Bool
  | [], _ => true
  | _ :: _, [] => false
  | a :: as, b :: bs => a == b && startsWithChars as bs

/-- Python `needle in hay` substring containment on char lists. -/
def containsChars (needle : List Char) : List Char → Bool
  | [] => needle.isEmpty
  | b :: bs => startsWithChars needle (b :: bs) || containsChars needle bs

/-- Python `needle in hay` for strings (substring containment). -/
def isSubstr (needle hay : String) : Bool :=
  containsChars needle.toList hay.toList

/-- Python `s.lower()` (ASCII case mapping), implemented over the character
list so that proofs can evaluate it. -/
def pyLower (s : String) : String :=
  String.mk (s.toList.map Char.toLower)

/-- Accumulating splitter for `pySplit`: walks the characters, collecting
the current word in reverse. -/
def splitWsAux : List Char → List Char → List String
  | [], acc => if acc.isEmpty then [] else [String.mk acc.reverse]
  | c :: cs, acc =>
    if c.isWhitespace then
      if acc.isEmpty then splitWsAux cs []
      else String.mk acc.reverse :: splitWsAux cs []
    else splitWsAux cs (c :: acc)

/-- Python `s.split()`: split on whitespace runs, dropping empty pieces. -/
def pySplit (s : String) : List String :=
  splitWsAux s.toList []

/-- `concept_mappings` of `ConversationService.semantic_search_conversations`
(conversation_service.py lines 116-128), transcribed verbatim. -/
def conversationConcepts : List (String × List String) :=
  [("complaint", ["complaint", "issue", "problem", "concern", "disappointed",
      "frustrated", "unhappy", "unsatisfied"]),
   ("refund", ["refund", "return", "money back", "reimbursement", "credit",
      "compensation"]),
   ("quality", ["quality", "defective", "broken", "malfunction", "faulty",
      "poor quality", "bad quality"]),
   ("safety", ["safety", "unsafe", "dangerous", "hazard", "risk", "harmful"]),
   ("shipping", ["shipping", "delivery", "shipped", "tracking", "package", "mail"]),
   ("battery", ["battery", "charge", "charging", "power", "dead battery",
      "low battery"]),
   ("gps", ["gps", "location", "tracking", "coordinates", "position", "map"]),
   ("app", ["app", "application", "software", "mobile", "phone", "device"]),
   ("customer_service", ["customer service", "support", "help", "assistance",
      "agent", "representative"]),
   ("topic", ["topic", "theme", "subject", "matter", "subject matter"]),
   ("common", ["common", "frequent", "often", "typical", "usual", "regular"])]

/-- `concept_mappings` of `SurveyService.semantic_search_surveys`
(survey_service.py lines 116-128), transcribed verbatim. -/
def surveyConcepts : List (String × List String) :=
  [("cancel", ["cancel", "cancelled", "cancellation", "canceled", "stopped", "ended"]),
   ("reason", ["reason", "why", "because", "due to", "caused by"]),
   ("gps", ["gps", "location", "pin", "coordinates", "position", "map",
      "tracking", "accuracy"]),
   ("battery", ["battery", "charge", "charging", "power", "dead", "low",
      "drain", "life"]),
   ("expensive", ["expensive", "cost", "price", "pricing", "afford", "value", "worth"]),
   ("dog", ["dog", "pet", "animal", "puppy", "canine"]),
   ("response", ["response", "respond", "feedback", "reaction", "react"]),
   ("training", ["training", "train", "learn", "curriculum", "teach"]),
   ("customer_service", ["customer service", "support", "help", "service", "contact"]),
   ("containment", ["containment", "fence", "boundary", "correction", "feedback"]),
   ("feedback", ["feedback", "correction", "static", "vibration", "sound"])]

/-- Python `concept_mappings.get(key, [])`. -/
def conceptLookup (concepts : List (String × List String)) (key : String) :
    List String :=
  (((concepts.find? (fun c => c.1 == key)).map (fun c => c.2)).getD [])

/-- The expanded term set built by `semantic_search_*` from a query: synonyms
of every concept that has a synonym occurring inside the lowercased query,
plus the query's lowercased words, plus 4-character stems of words longer
than 4 characters.  The Python value is a `set`; the score only reads it as
a sum over distinct members, so it is modelled as a deduplicated list. -/
def relatedTerms (concepts : List (String × List String)) (query : String) :
    List String :=
  let ql := pyLower query
  let conceptTerms :=
    ((concepts.filter (fun c => c.2.any (fun t => isSubstr t ql))).map
      (fun c => c.2)).flatten
  let wordTerms := (pySplit query).map pyLower
  let qWords := pySplit ql
  let stemTerms := qWords ++ (qWords.filter (fun w => 4 < w.length)).map
    (fun w => String.mk (w.toList.take 4))
  (conceptTerms ++ wordTerms ++ stemTerms).dedup

/-- The relevance-scoring loop body of `semantic_search_conversations` /
`semantic_search_surveys` (identical in both services), accumulated over the
expanded term set.  Transcribes lines 160-174 of conversation_service.py:
the `term_lower and searchable and term_lower in searchable` truthiness
guard, then the +10/+5/+2/+1 tiers, where the +2 tier is Python
`any(term_lower in mapped_term for mapped_term in concept_mappings.values())`
— list membership of the term in some concept's synonym list. -/
def scoreItem (concepts : List (String × List String))
    (queryLower searchable : String) : List String → Nat
  | [] => 0
  | term :: rest =>
    let tl := pyLower term
    let inc :=
      if tl ≠ "" && searchable ≠ "" && isSubstr tl searchable then
        if tl == queryLower then 10
        else if (conceptLookup concepts queryLower).contains tl then 5
        else if concepts.any (fun c => c.2.contains tl) then 2
        else 1
      else 0
    inc + scoreItem concepts queryLower searchable rest

/-- Per-term tier weight exactly as claim C2 words it: +2 when the term
appears as a SUBSTRING inside any concept's synonym list.  This definition
follows the claim's words, not the source, and is compared against
`scoreItem`. -/
def claimTermPointsSub (concepts : List (String × List String))
    (queryLower searchable term : String) : Nat :=
  let tl := pyLower term
  if isSubstr tl searchable then
    if tl == queryLower then 10
    else if (conceptLookup concepts queryLower).contains tl then 5
    else if concepts.any (fun c => c.2.any (fun syn => isSubstr tl syn)) then 2
    else 1
  else 0

/-- Per-term tier weight as the amended claim words it: the term scores only
when both the term and the searchable text are non-empty and the term occurs
as a substring; +10 for the literal query, +5 for a synonym under the concept
keyed by the query, +2 when the term is EXACTLY one of the synonyms in any
concept's list, +1 otherwise. -/
def claimTermPointsExact (concepts : List (String × List String))
    (queryLower searchable term : String) : Nat :=
  let tl := pyLower term
  if tl ≠ "" && searchable ≠ "" && isSubstr tl searchable then
    if tl == queryLower then 10
    else if (conceptLookup concepts queryLower).contains tl then 5
    else if concepts.any (fun c => c.2.contains tl) then 2
    else 1
  else 0

/-- `semantic_search_conversations` / `semantic_search_surveys`, generic in
the item type via the `searchable_text` projection: score every item against
the expanded terms, keep items with positive score, stable-sort by score
descending (Python `list.sort` is stable), return the top `limit` items. -/
def semanticSearchBy {α : Type} (concepts : List (String × List String))
    (searchableOf : α → String) (items : List α) (query : String)
    (limit : Nat) : List α :=
  if items.isEmpty then []
  else
    ((List.insertionSort (fun a b => b.2 ≤ a.2)
      (items.filterMap (fun it =>
        if 0 < scoreItem concepts (pyLower query) (searchableOf it)
            (relatedTerms concepts query) then
          some (it, scoreItem concepts (pyLower query) (searchableOf it)
            (relatedTerms concepts query))
        else none))).take limit).map (fun p => p.1)

/-- The `content` dict of a conversation item, restricted to the keys the
pipeline reads: `type`, `content`, `subject`, `body`.  `none` means the key
is absent from the dict. -/
structure ConvContent where
  type? : Option String
  text? : Option String
  subject? : Option String
  body? : Option String
  deriving DecidableEq

/-- `ConversationItem` (backend/models/conversation.py): the dict shape
produced by `to_dict`, all keys present, missing source fields default to
the empty string (`from_dict`). -/
structure ConvItem where
  id : String
  timestamp : String
  customerId : String
  conversationId : String
  content : ConvContent
  deriving DecidableEq

/-- `ConversationItem.searchable_text`: the space-join of the `content`,
`subject` and `body` values whose keys are present, lowercased. -/
def ConvItem.searchable_text (it : ConvItem) : String :=
  pyLower (String.intercalate " "
    ([it.content.text?, it.content.subject?, it.content.body?].filterMap
      (fun o => o)))

/-- A survey response as consumed by `SurvicateRAGService._retrieve_data`
through `SurveyResponse.to_dict()`: the `response_uuid` and `date_time`
string fields (defaulted to `""` by `from_dict` when missing) and the
derived `searchable_text`. -/
structure SurveyItem where
  response_uuid : String
  date_time : String
  searchable_text : String
  deriving DecidableEq

/-- The retrieval plan fields read by `RAGService._retrieve_data`. -/
structure RagPlan where
  searchTerms : List String
  contentTypes : List String
  timeFilters : String
  maxItems : Nat
  deriving DecidableEq

/-- The retrieval plan fields read by `SurvicateRAGService._retrieve_data`. -/
structure SurvPlan where
  searchTerms : List String
  timeFilters : String
  maxItems : Nat
  deriving DecidableEq

/-- The per-term retrieval budget of the conversation path
(rag_service.py line 153): `plan['max_items'] // len(plan['search_terms'])`,
with no lower bound. -/
def convTermLimit (plan : RagPlan) : Nat :=
  plan.maxItems / plan.searchTerms.length

/-- The per-term retrieval budget of the survey path
(survicate_rag_service.py line 176):
`max(1, plan.get('max_items', 100) // max(len(search_terms), 1))`. -/
def survTermLimit (plan : SurvPlan) : Nat :=
  max 1 (plan.maxItems / max plan.searchTerms.length 1)

/-- The dedup-and-truncate loop of `RAGService._retrieve_data`
(lines 189-196): walk the list, skip items whose id was seen, append new
ones, and break once `budget` items have been appended (the break fires
after the append, so a zero budget still lets the first fresh item in). -/
def dedupLimit (budget : Nat) (seen : List String) :
    List ConvItem → List ConvItem
  | [] => []
  | x :: xs =>
    if seen.contains x.id then dedupLimit budget seen xs
    else if budget ≤ 1 then [x]
    else x :: dedupLimit (budget - 1) (x.id :: seen) xs

/-- Everything `RAGService._retrieve_data` does before the final dedup:
per-term semantic search with budget `maxItems // len(searchTerms)`,
concatenation, the content-type filter, and the recent-ids time filter.
`parseTs` abstracts `datetime.fromisoformat` (`none` = raises), `now` the
current instant in seconds; `get_recent_conversations` skips items whose
`timestamp` is falsy or unparsable, and the time filter is only applied
when the recent-id set is non-empty (lines 174-186). -/
def ragPreDedup (parseTs : String → Option Int) (now : Int)
    (corpus : List ConvItem) (plan : RagPlan) : List ConvItem :=
  let perTerm := plan.searchTerms.map (fun t =>
    semanticSearchBy conversationConcepts ConvItem.searchable_text corpus t
      (convTermLimit plan))
  let relevant := perTerm.flatten
  let relevant :=
    if plan.contentTypes ≠ ["all"] then
      relevant.filter (fun it =>
        match it.content.type? with
        | some ty => plan.contentTypes.contains ty
        | none => false)
    else relevant
  let applyRecent := fun (hours : Nat) =>
    let recentIds := (corpus.filter (fun it =>
      it.timestamp ≠ "" &&
        match parseTs it.timestamp with
        | some tm => decide (now - (hours : Int) * 3600 ≤ tm)
        | none => false)).map (fun it => it.id)
    if recentIds.isEmpty then relevant
    else relevant.filter (fun it => recentIds.contains it.id)
  if plan.timeFilters = "last_24_hours" then applyRecent 24
  else if plan.timeFilters = "last_7_days" then applyRecent (24 * 7)
  else relevant

/-- `RAGService._retrieve_data` (rag_service.py lines 130-204): returns
empty when no conversations are loaded, otherwise search, filter,
deduplicate by id and truncate to `max_items`.  There is no minimum-yield
fallback in this path. -/
def ragRetrieveData (parseTs : String → Option Int) (now : Int)
    (corpus : List ConvItem) (plan : RagPlan) : List ConvItem :=
  if corpus.isEmpty then []
  else dedupLimit plan.maxItems [] (ragPreDedup parseTs now corpus plan)

/-- The diversity-fallback sampling loop of `SurvicateRAGService._retrieve_data`
(lines 204-214): iterate the corpus in order, stop when `budget` items are
collected (checked at the top of each iteration), skip duplicate
`response_uuid`s. -/
def fallbackSample (budget : Nat) (seen : List String) :
    List SurveyItem → List SurveyItem
  | [] => []
  | x :: xs =>
    if budget = 0 then []
    else if seen.contains x.response_uuid then fallbackSample budget seen xs
    else x :: fallbackSample (budget - 1) (x.response_uuid :: seen) xs

/-- The survey time-filter predicate (survicate_rag_service.py lines
236-249): items with a falsy `date_time` or an unparsable one are included;
parsed dates are kept when on or after the cutoff.  `parseDt` abstracts
`datetime.strptime(s, %Y-%m-%d %H:%M:%S)` with `none` meaning it raises. -/
def keepByTime (parseDt : String → Option Int) (cutoff : Int)
    (it : SurveyItem) : Bool :=
  if it.date_time ≠ "" then
    match parseDt it.date_time with
    | some t => decide (cutoff ≤ t)
    | none => true
  else true

/-- Cutoff instant for the survey time filter (lines 225-232): only the
three recognized window names get a cutoff, anything else is a no-op. -/
def survCutoff (now : Int) : String → Option Int
  | "last_30_days" => some (now - 30 * 86400)
  | "last_7_days" => some (now - 7 * 86400)
  | "last_90_days" => some (now - 90 * 86400)
  | _ => none

/-- The final dedup-and-truncate loop of `SurvicateRAGService._retrieve_data`
(lines 259-268): `if response_uuid and response_uuid not in seen_uuids` —
items with a falsy uuid are dropped outright; fresh uuids are appended and
the loop breaks after reaching `max_items` (so a zero budget still admits
the first fresh item). -/
def dedupLimitSurv (budget : Nat) (seen : List String) :
    List SurveyItem → List SurveyItem
  | [] => []
  | x :: xs =>
    if x.response_uuid = "" then dedupLimitSurv budget seen xs
    else if seen.contains x.response_uuid then dedupLimitSurv budget seen xs
    else if budget ≤ 1 then [x]
    else x :: dedupLimitSurv (budget - 1) (x.response_uuid :: seen) xs

/-- Everything `SurvicateRAGService._retrieve_data` does before the final
dedup, together with the fallback diagnostics: per-term semantic search
with budget `max(1, maxItems // max(len(terms), 1))`, the minimum-yield
check (`MIN_RESULTS_THRESHOLD = 20` over a non-empty corpus) replacing the
sparse result with the diversity sample, then the time filter. -/
def survPreDedup (parseDt : String → Option Int) (now : Int)
    (surveys : List SurveyItem) (plan : SurvPlan) :
    List SurveyItem × Bool × String :=
  let perTerm := plan.searchTerms.map (fun t =>
    semanticSearchBy surveyConcepts SurveyItem.searchable_text surveys t
      (survTermLimit plan))
  let relevant := perTerm.flatten
  let step :=
    if relevant.length < 20 && 0 < surveys.length then
      (fallbackSample (min plan.maxItems surveys.length) [] surveys, true,
        "Semantic search returned only " ++ toString relevant.length ++
          " results, below minimum threshold")
    else (relevant, false, "")
  let filtered :=
    if plan.timeFilters ≠ "all" then
      match survCutoff now plan.timeFilters with
      | some cutoff => step.1.filter (fun it => keepByTime parseDt cutoff it)
      | none => step.1
    else step.1
  (filtered, step.2.1, step.2.2)

/-- The result of the survey retrieval step: the item list plus the
`diagnostics['fallback_used']` / `diagnostics['fallback_reason']` stats
recorded by `SurvicateRAGService._retrieve_data`. -/
structure SurvRetrieval where
  items : List SurveyItem
  fallbackUsed : Bool
  fallbackReason : String
  deriving DecidableEq

/-- `SurvicateRAGService._retrieve_data` (lines 143-284): empty result when
no surveys are loaded, otherwise search, minimum-yield fallback, time
filter, dedup by `response_uuid` and truncation to `max_items`. -/
def survicateRetrieveData (parseDt : String → Option Int) (now : Int)
    (surveys : List SurveyItem) (plan : SurvPlan) : SurvRetrieval :=
  if surveys.isEmpty then ⟨[], false, ""⟩
  else
    ⟨dedupLimitSurv plan.maxItems [] (survPreDedup parseDt now surveys plan).1,
      (survPreDedup parseDt now surveys plan).2.1,
      (survPreDedup parseDt now surveys plan).2.2⟩

/-- JSON values as produced by `json.loads` (numbers restricted to the
integers the pipeline actually uses). -/
inductive Json where
  | null : Json
  | bool (b : Bool) : Json
  | num (n : Int) : Json
  | str (s : String) : Json
  | arr (xs : List Json) : Json
  | obj (kvs : List (String × Json)) : Json

/-- The `re.search(r'\x7b.*\x7d', text, re.DOTALL)` match of
`extract_json_from_text` (helpers.py line 16): the slice from the first
opening brace to the last closing brace after it, `none` when the pattern
does not match. -/
def braceSlice (text : String) : Option String :=
  let rest := text.toList.dropWhile (fun c => c ≠ '{')
  match rest with
  | [] => none
  | _ :: _ =>
    let upto := ((rest.reverse).dropWhile (fun c => c ≠ '}')).reverse
    if upto.isEmpty then none else some (String.mk upto)

/-- `extract_json_from_text` (helpers.py lines 12-21): regex slice then
`json.loads`; the stdlib parser is abstracted as `parse` (`none` = raises
`JSONDecodeError`).  A successful parse of a brace-delimited slice is a
JSON object, so `parse` returns its key-value list. -/
def extract_json_from_text (parse : String → Option (List (String × Json)))
    (text : String) : Option (List (String × Json)) :=
  (braceSlice text).bind parse

/-- The deterministic fallback plan of `RAGService._plan_query`
(rag_service.py lines 118-124). -/
def fallbackPlan (question : String) : List (String × Json) :=
  [("search_terms", Json.arr [Json.str question]),
   ("content_types", Json.arr [Json.str "CHAT_MESSAGE", Json.str "EMAIL",
      Json.str "CONVERSATION_NOTE"]),
   ("time_filters", Json.str "all"),
   ("analysis_focus", Json.str "general analysis"),
   ("max_items", Json.num 100)]

/-- The five plan keys `_plan_query` reads inside its try block; a missing
one raises `KeyError` and lands in the fallback. -/
def requiredPlanKeys : List String :=
  ["search_terms", "content_types", "time_filters", "analysis_focus", "max_items"]

/-- `RAGService._plan_query` (rag_service.py lines 95-128): the LLM call is
`llm` (`Except.error` = the client raised), the planning text is mined with
`extract_json_from_text`; a missing object, a falsy (empty) object, or a
missing required key all fall back to `fallbackPlan`.  The function is
total: no failure propagates to the caller. -/
def plan_query (parse : String → Option (List (String × Json)))
    (llm : Except String String) (question : String) : List (String × Json) :=
  match llm with
  | Except.error _ => fallbackPlan question
  | Except.ok text =>
    match extract_json_from_text parse text with
    | none => fallbackPlan question
    | some kvs =>
      if kvs.isEmpty then fallbackPlan question
      else if requiredPlanKeys.all (fun k => (kvs.find? (fun kv => kv.1 == k)).isSome)
        then kvs
        else fallbackPlan question

/-- `CONVERSATION_TOPICS` (topic_extraction_service.py lines 17-33). -/
def CONVERSATION_TOPICS : List String :=
  ["GPS and Location Accuracy Issues",
   "Dog doesn\x27t respond to collar",
   "Battery life, charging or power issues",
   "Feedback Timing / Response Delay Issues",
   "Hardware Reliability Issues",
   "Billing / Subscription Questions",
   "Shipping / Delivery Issues",
   "Account Management / Login Issues",
   "Feature Questions / How-to",
   "Returns / Refunds",
   "Product Recommendations / Purchasing",
   "General Customer Service",
   "Other"]

/-- `TopicExtractionService._validate_topic` (lines 236-247): falsy input,
exact membership, then case-insensitive exact search; everything else is
"Other".  There is no substring matching in this function. -/
def validate_topic (topic : String) : String :=
  if topic = "" then "Other"
  else if CONVERSATION_TOPICS.contains topic then topic
  else
    match CONVERSATION_TOPICS.find? (fun v => pyLower v == pyLower topic) with
    | some v => v
    | none => "Other"

/-- Topic normalization as claim C8 words it: case-insensitive exact
matching AND substring fallback matching (a label matching a canonical
topic as a substring, either way around, resolves to that topic).  This
definition follows the claim's words, not the source, and is compared
against `validate_topic`. -/
def validate_topic_claim (topic : String) : String :=
  if topic = "" then "Other"
  else
    match CONVERSATION_TOPICS.find? (fun v => pyLower v == pyLower topic) with
    | some v => v
    | none =>
      match CONVERSATION_TOPICS.find? (fun v =>
          isSubstr (pyLower topic) (pyLower v) || isSubstr (pyLower v) (pyLower topic)) with
      | some v => v
      | none => "Other"

/-- The metadata record assembled by `extract_conversation_metadata`. -/
structure TopicMeta where
  topic : String
  sentiment : String
  customer_sentiment : String
  key_phrases : List String
  product_version : Option String
  deriving DecidableEq

/-- The all-defaults record used on give-up paths (lines 58-65, 157-163,
214-220, 388-394). -/
def defaultTopicMeta : TopicMeta :=
  ⟨"Other", "Neutral", "Neutral", [], none⟩

/-- Outcome of one `claude_service.send_message` attempt inside
`extract_conversation_metadata`, as seen by the retry loop: a successfully
parsed and validated metadata record, a `json.JSONDecodeError`, an
`HTTPError`/`RequestException` with its optional status code and message,
or any other exception with its message. -/
inductive Attempt where
  | ok (m : TopicMeta) : Attempt
  | jsonErr : Attempt
  | httpErr (status : Option Nat) (msg : String) : Attempt
  | otherErr (msg : String) : Attempt
  deriving DecidableEq

/-- The string markers used to recognize a rate-limit error from an
exception message (`'429' in error_msg or 'rate_limit' in error_msg.lower()
or 'Too Many Requests' in error_msg`), shared by
`extract_conversation_metadata` and `batch_extract_topics`. -/
def rlMarkers (msg : String) : Bool :=
  isSubstr "429" msg || isSubstr "rate_limit" (pyLower msg) ||
    isSubstr "Too Many Requests" msg

/-- Rate-limit detection inside the `HTTPError` handler
(topic_extraction_service.py line 175): the status code is also consulted. -/
def isRateLimitHttp (status : Option Nat) (msg : String) : Bool :=
  status == some 429 || rlMarkers msg

/-- Python `f"{status_code}"` for an optional status. -/
def statusStr : Option Nat → String
  | some n => toString n
  | none => "None"

/-- Result of one conversation's extraction: the returned record or the
message of the exception it raises. -/
inductive MetaResult where
  | ok (m : TopicMeta) : MetaResult
  | err (msg : String) : MetaResult
  deriving DecidableEq

/-- The retry loop of `extract_conversation_metadata` (lines 117-220) over
the script of successive attempt outcomes, also collecting the
`time.sleep` waits.  `i` is the 0-based attempt index, `maxRetries` the
`max_retries` argument (default 3); `fallbackTopic` abstracts the result of
`_extract_topic_fallback` (a second LLM call) on the final JSON-decode
failure.  Exhausting the script or the loop returns the post-loop default
record (line 214). -/
def extractLoop (maxRetries : Nat) (fallbackTopic : String) :
    Nat → List Attempt → MetaResult × List Nat
  | _, [] => (MetaResult.ok defaultTopicMeta, [])
  | i, a :: rest =>
    if maxRetries ≤ i then (MetaResult.ok defaultTopicMeta, [])
    else
      match a with
      | Attempt.ok m => (MetaResult.ok m, [])
      | Attempt.jsonErr =>
        if i + 1 < maxRetries then extractLoop maxRetries fallbackTopic (i + 1) rest
        else (MetaResult.ok ⟨fallbackTopic, "Neutral", "Neutral", [], none⟩, [])
      | Attempt.httpErr status msg =>
        if isRateLimitHttp status msg then
          if i + 1 < maxRetries then
            let r := extractLoop maxRetries fallbackTopic (i + 1) rest
            (r.1, min (2 ^ i) 60 :: r.2)
          else
            (MetaResult.err ("Rate limit exceeded. Claude API is rate limiting requests. Please wait 1-2 minutes and try again. Details: " ++ msg), [])
        else
          if i + 1 < maxRetries then
            let r := extractLoop maxRetries fallbackTopic (i + 1) rest
            (r.1, min (2 ^ i) 10 :: r.2)
          else
            (MetaResult.err ("HTTP error (" ++ statusStr status ++ "): " ++ msg), [])
      | Attempt.otherErr msg =>
        if rlMarkers msg then
          if i + 1 < maxRetries then
            let r := extractLoop maxRetries fallbackTopic (i + 1) rest
            (r.1, min (2 ^ i) 60 :: r.2)
          else
            (MetaResult.err ("Rate limit exceeded. Claude API is rate limiting requests. Please wait a minute and try again. Details: " ++ msg), [])
        else
          if i + 1 < maxRetries then
            let r := extractLoop maxRetries fallbackTopic (i + 1) rest
            (r.1, min (2 ^ i) 5 :: r.2)
          else
            (MetaResult.err ("Failed to extract metadata after " ++ toString maxRetries ++ " attempts: " ++ msg), [])

/-- `extract_conversation_metadata` for one conversation, given the script
of its successive LLM-attempt outcomes.  Returns the result together with
the backoff waits slept between attempts. -/
def extractMeta (maxRetries : Nat) (fallbackTopic : String)
    (attempts : List Attempt) : MetaResult × List Nat :=
  extractLoop maxRetries fallbackTopic 0 attempts

/-- Outcome of `batch_extract_topics`: the per-conversation results saved
through the incremental-save callback in processing order, the message of
the re-raised rate-limit exception when the batch was aborted (`none` when
it ran to completion), and the success/failure tallies. -/
structure BatchOutcome where
  results : List (String × TopicMeta)
  aborted : Option String
  succeeded : Nat
  failed : Nat
  deriving DecidableEq

/-- The sequential loop of `batch_extract_topics` (lines 346-403):
per-conversation extraction; a raised error whose message carries a
rate-limit marker aborts the batch, re-raising and keeping the results
already saved; any other error records the default metadata for the item
and continues. -/
def batchExtractGo (maxRetries total : Nat) (acc : BatchOutcome) :
    List (String × String × List Attempt) → BatchOutcome
  | [] => acc
  | (cid, fallbackTopic, script) :: rest =>
    match (extractMeta maxRetries fallbackTopic script).1 with
    | MetaResult.ok m =>
      batchExtractGo maxRetries total
        ⟨acc.results ++ [(cid, m)], none, acc.succeeded + 1, acc.failed⟩ rest
    | MetaResult.err msg =>
      if rlMarkers msg then
        ⟨acc.results,
          some ("Rate limit exceeded after processing " ++ toString acc.succeeded ++
            " of " ++ toString total ++ " conversations. Please wait 1-2 minutes and try again. Partial progress has been saved. Error: " ++ msg),
          acc.succeeded, acc.failed + 1⟩
      else
        batchExtractGo maxRetries total
          ⟨acc.results ++ [(cid, defaultTopicMeta)], none, acc.succeeded,
            acc.failed + 1⟩ rest

/-- `batch_extract_topics` over a batch of conversations, each given as
(conversation id, abstracted `_extract_topic_fallback` result, script of
LLM-attempt outcomes). -/
def batchExtract (maxRetries : Nat)
    (convs : List (String × String × List Attempt)) : BatchOutcome :=
  batchExtractGo maxRetries convs.length ⟨[], none, 0, 0⟩ convs

/-- Python truthiness of a JSON value (`if value['product_version']:`). -/
def jsonTruthy : Json → Bool
  | Json.null => false
  | Json.bool b => b
  | Json.num n => n != 0
  | Json.str s => s ≠ ""
  | Json.arr xs => !xs.isEmpty
  | Json.obj kvs => !kvs.isEmpty

/-- Python `key in dict` on a JSON object. -/
def dictHas (kvs : List (String × Json)) (k : String) : Bool :=
  kvs.any (fun kv => kv.1 == k)

/-- Python `dict.get(key)` on a JSON object. -/
def dictGet (kvs : List (String × Json)) (k : String) : Option Json :=
  (kvs.find? (fun kv => kv.1 == k)).map (fun kv => kv.2)

/-- Python `dict[key] = v`: replace in place when present, else append
(insertion order is preserved by Python dicts). -/
def dictSet (kvs : List (String × Json)) (k : String) (v : Json) :
    List (String × Json) :=
  if dictHas kvs k then
    kvs.map (fun kv => if kv.1 == k then (k, v) else kv)
  else kvs ++ [(k, v)]

/-- Python `del dict[key]`. -/
def dictDel (kvs : List (String × Json)) (k : String) :
    List (String × Json) :=
  kvs.filter (fun kv => !(kv.1 == k))

/-- A persisted per-conversation topic value: either the legacy bare topic
string or the metadata dict (topic_storage_service.py line 39 documents the
union type). -/
inductive TopicVal where
  | str (s : String) : TopicVal
  | dict (kvs : List (String × Json)) : TopicVal

/-- The full-record upgrade of a legacy bare-string value, as built by
`save_topics_for_date` (lines 130-140) and `add_topic_for_date`
(lines 190-200). -/
def upgradedStringRecord (s : String) : List (String × Json) :=
  [("topic", Json.str s),
   ("sentiment", Json.str "Neutral"),
   ("customer_sentiment", Json.str "Neutral"),
   ("key_phrases", Json.arr []),
   ("collar_firmware_version", Json.null),
   ("collar_model", Json.null),
   ("collar_serial_number", Json.null),
   ("mobile_app_version", Json.null),
   ("extracted_at", Json.null)]

/-- Python `if key not in value: value[key] = None`, as done for
`extracted_at` and the four device fields in `save_topics_for_date`. -/
def ensureKey (kvs : List (String × Json)) (k : String) :
    List (String × Json) :=
  if dictHas kvs k then kvs else dictSet kvs k Json.null

/-- The `product_version` migration of `save_topics_for_date`
(topic_storage_service.py lines 147-153): when a truthy `product_version`
is present, copy it into a missing-or-falsy `collar_model` and delete the
old field. -/
def migrateProductVersion (kvs : List (String × Json)) :
    List (String × Json) :=
  if dictHas kvs "product_version" &&
      ((dictGet kvs "product_version").map jsonTruthy).getD false then
    dictDel
      (if !dictHas kvs "collar_model" ||
          !((dictGet kvs "collar_model").map jsonTruthy).getD false then
        dictSet kvs "collar_model" ((dictGet kvs "product_version").getD Json.null)
      else kvs)
      "product_version"
  else kvs

/-- The per-value normalization performed by `save_topics_for_date`
(topic_storage_service.py lines 127-168): bare strings become the full
record; dicts get `extracted_at` defaulted, the legacy `product_version`
field migrated into `collar_model`, and the four device fields ensured, in
source order. -/
def normalizeEntry : TopicVal → List (String × Json)
  | TopicVal.str s => upgradedStringRecord s
  | TopicVal.dict kvs =>
    ensureKey (ensureKey (ensureKey (ensureKey
      (migrateProductVersion (ensureKey kvs "extracted_at"))
      "collar_firmware_version") "collar_model") "collar_serial_number")
      "mobile_app_version"

/-- The mapping normalization of `save_topics_for_date` applied to a whole
per-date mapping before it is persisted. -/
def saveTopicsNormalize (mapping : List (String × TopicVal)) :
    List (String × List (String × Json)) :=
  mapping.map (fun e => (e.1, normalizeEntry e.2))

/-- `TopicStorageService.get_topics_for_date` (lines 238-245):
`self.topics_by_date.get(date)` — the stored per-date mapping is returned
exactly as it was loaded, with no format upgrade. -/
def get_topics_for_date (store : List (String × List (String × TopicVal)))
    (date : String) : Option (List (String × TopicVal)) :=
  (store.find? (fun e => e.1 == date)).map (fun e => e.2)

/-- The record keys claim C9 requires of every loaded value. -/
def recordShapeKeys : List String :=
  ["topic", "sentiment", "customer_sentiment", "key_phrases", "extracted_at"]

/-- Whether a stored topic value is in the full record shape of claim C9. -/
def isFullRecordVal : TopicVal → Bool
  | TopicVal.str _ => false
  | TopicVal.dict kvs => recordShapeKeys.all (fun k => dictHas kvs k)

/-! ### Helper lemmas about the scoring and search machinery -/

theorem scoreItem_eq_sum_claimExact (concepts : List (String × List String))
    (queryLower searchable : String) (terms : List String) :
    scoreItem concepts queryLower searchable terms =
      (terms.map (claimTermPointsExact concepts queryLower searchable)).sum := by
  induction terms with
  | nil => rfl
  | cons t ts ih =>
    simp only [scoreItem, claimTermPointsExact, List.map_cons, List.sum_cons, ih]

theorem mem_semanticSearchBy_pos {α : Type} (concepts : List (String × List String))
    (f : α → String) (items : List α) (q : String) (lim : Nat) (it : α)
    (h : it ∈ semanticSearchBy concepts f items q lim) :
    0 < scoreItem concepts (pyLower q) (f it) (relatedTerms concepts q) := by
  rw [semanticSearchBy] at h
  split at h
  · simp at h
  · rw [List.mem_map] at h
    obtain ⟨p, hp, hpe⟩ := h
    have hp2 := List.mem_of_mem_take hp
    have hp3 := (List.perm_insertionSort
      (fun (a b : α × Nat) => b.2 ≤ a.2) _).mem_iff.mp hp2
    rw [List.mem_filterMap] at hp3
    obtain ⟨a, _, ha⟩ := hp3
    by_cases h0 : 0 < scoreItem concepts (pyLower q) (f a) (relatedTerms concepts q)
    · rw [if_pos h0] at ha
      cases ha
      cases hpe
      exact h0
    · rw [if_neg h0] at ha
      cases ha

theorem containsChars_append_right (needle xs ys : List Char)
    (h : containsChars needle ys = true) :
    containsChars needle (xs ++ ys) = true := by
  induction xs with
  | nil => simpa using h
  | cons x xs ih =>
    rw [List.cons_append, containsChars, Bool.or_eq_true]
    exact Or.inr ih

theorem isSubstr_threshold_reason (k : Nat) :
    isSubstr "threshold"
      ("Semantic search returned only " ++ toString k ++
        " results, below minimum threshold") = true := by
  rw [isSubstr]
  have hdata : ("Semantic search returned only " ++ toString k ++
      " results, below minimum threshold").toList =
      ("Semantic search returned only " ++ toString k).toList ++
        (" results, below minimum threshold").toList := by
    simp [String.data_append]
  rw [hdata]
  exact containsChars_append_right _ _ _ (by decide)

/-! ### Helper lemmas about the dedup-and-truncate loops -/

theorem mem_dedupLimit_not_seen (b : Nat) (seen : List String)
    (l : List ConvItem) (y : ConvItem) (h : y ∈ dedupLimit b seen l) :
    y.id ∉ seen := by
  induction l generalizing b seen with
  | nil => simp [dedupLimit] at h
  | cons x xs ih =>
    rw [dedupLimit] at h
    split at h
    · exact ih _ _ h
    · next hseen =>
      split at h
      · simp at h
        subst h
        simpa using hseen
      · rcases List.mem_cons.mp h with rfl | h2
        · simpa using hseen
        · intro hy
          exact ih _ _ h2 (List.mem_cons_of_mem _ hy)

theorem dedupLimit_nodup (b : Nat) (seen : List String) (l : List ConvItem) :
    ((dedupLimit b seen l).map (fun y => y.id)).Nodup := by
  induction l generalizing b seen with
  | nil => simp [dedupLimit]
  | cons x xs ih =>
    rw [dedupLimit]
    split
    · exact ih _ _
    · split
      · simp
      · simp only [List.map_cons, List.nodup_cons]
        refine ⟨?_, ih _ _⟩
        intro hmem
        rw [List.mem_map] at hmem
        obtain ⟨y, hy, hid⟩ := hmem
        have hns := mem_dedupLimit_not_seen _ _ _ _ hy
        exact hns (hid ▸ List.mem_cons_self _ _)

theorem dedupLimit_length (b : Nat) (seen : List String) (l : List ConvItem) :
    (dedupLimit b seen l).length ≤ max b 1 := by
  induction l generalizing b seen with
  | nil => simp [dedupLimit]
  | cons x xs ih =>
    rw [dedupLimit]
    split
    · exact ih _ _
    · split
      · simpa using Nat.le_max_right b 1
      · have hrec := ih (b - 1) (x.id :: seen)
        simp only [List.length_cons]
        omega

theorem dedupLimit_find? (b : Nat) (seen : List String) (l : List ConvItem)
    (y : ConvItem) (h : y ∈ dedupLimit b seen l) :
    l.find? (fun z => z.id == y.id) = some y := by
  induction l generalizing b seen with
  | nil => simp [dedupLimit] at h
  | cons x xs ih =>
    rw [dedupLimit] at h
    split at h
    · next hseen =>
      have hy := mem_dedupLimit_not_seen _ _ _ _ h
      have hxy : ¬(x.id == y.id) = true := by
        simp only [beq_iff_eq]
        intro he
        rw [he] at hseen
        simp at hseen
        exact hy hseen
      have hstep : List.find? (fun z => z.id == y.id) (x :: xs) =
          List.find? (fun z => z.id == y.id) xs :=
        List.find?_cons_of_neg xs hxy
      rw [hstep]
      exact ih _ _ h
    · split at h
      · simp at h
        subst h
        exact List.find?_cons_of_pos xs (by simp)
      · rcases List.mem_cons.mp h with rfl | h2
        · exact List.find?_cons_of_pos xs (by simp)
        · have hy := mem_dedupLimit_not_seen _ _ _ _ h2
          have hxy : ¬(x.id == y.id) = true := by
            simp only [beq_iff_eq]
            intro he
            exact hy (he ▸ List.mem_cons_self _ _)
          have hstep : List.find? (fun z => z.id == y.id) (x :: xs) =
              List.find? (fun z => z.id == y.id) xs :=
            List.find?_cons_of_neg xs hxy
          rw [hstep]
          exact ih _ _ h2

theorem mem_dedupLimitSurv_ne_empty (b : Nat) (seen : List String)
    (l : List SurveyItem) (y : SurveyItem) (h : y ∈ dedupLimitSurv b seen l) :
    y.response_uuid ≠ "" := by
  induction l generalizing b seen with
  | nil => simp [dedupLimitSurv] at h
  | cons x xs ih =>
    rw [dedupLimitSurv] at h
    split at h
    · exact ih _ _ h
    · next hempty =>
      split at h
      · exact ih _ _ h
      · split at h
        · simp at h
          subst h
          exact hempty
        · rcases List.mem_cons.mp h with rfl | h2
          · exact hempty
          · exact ih _ _ h2

theorem mem_dedupLimitSurv_not_seen (b : Nat) (seen : List String)
    (l : List SurveyItem) (y : SurveyItem) (h : y ∈ dedupLimitSurv b seen l) :
    y.response_uuid ∉ seen := by
  induction l generalizing b seen with
  | nil => simp [dedupLimitSurv] at h
  | cons x xs ih =>
    rw [dedupLimitSurv] at h
    split at h
    · exact ih _ _ h
    · split at h
      · exact ih _ _ h
      · next hseen =>
        split at h
        · simp at h
          subst h
          simpa using hseen
        · rcases List.mem_cons.mp h with rfl | h2
          · simpa using hseen
          · intro hy
            exact ih _ _ h2 (List.mem_cons_of_mem _ hy)

theorem dedupLimitSurv_nodup (b : Nat) (seen : List String)
    (l : List SurveyItem) :
    ((dedupLimitSurv b seen l).map (fun y => y.response_uuid)).Nodup := by
  induction l generalizing b seen with
  | nil => simp [dedupLimitSurv]
  | cons x xs ih =>
    rw [dedupLimitSurv]
    split
    · exact ih _ _
    · split
      · exact ih _ _
      · split
        · simp
        · simp only [List.map_cons, List.nodup_cons]
          refine ⟨?_, ih _ _⟩
          intro hmem
          rw [List.mem_map] at hmem
          obtain ⟨y, hy, hid⟩ := hmem
          have hns := mem_dedupLimitSurv_not_seen _ _ _ _ hy
          exact hns (hid ▸ List.mem_cons_self _ _)

theorem dedupLimitSurv_length (b : Nat) (seen : List String)
    (l : List SurveyItem) : (dedupLimitSurv b seen l).length ≤ max b 1 := by
  induction l generalizing b seen with
  | nil => simp [dedupLimitSurv]
  | cons x xs ih =>
    rw [dedupLimitSurv]
    split
    · exact ih _ _
    · split
      · exact ih _ _
      · split
        · simpa using Nat.le_max_right b 1
        · have hrec := ih (b - 1) (x.response_uuid :: seen)
          simp only [List.length_cons]
          omega

theorem dedupLimitSurv_find? (b : Nat) (seen : List String)
    (l : List SurveyItem) (y : SurveyItem)
    (h : y ∈ dedupLimitSurv b seen l) :
    l.find? (fun z => z.response_uuid == y.response_uuid) = some y := by
  have hyne : y.response_uuid ≠ "" := mem_dedupLimitSurv_ne_empty _ _ _ _ h
  induction l generalizing b seen with
  | nil => simp [dedupLimitSurv] at h
  | cons x xs ih =>
    rw [dedupLimitSurv] at h
    split at h
    · next hempty =>
      have hxy : ¬(x.response_uuid == y.response_uuid) = true := by
        simp only [beq_iff_eq]
        intro he
        exact hyne (by rw [← he]; exact hempty)
      have hstep : List.find? (fun z => z.response_uuid == y.response_uuid)
          (x :: xs) =
          List.find? (fun z => z.response_uuid == y.response_uuid) xs :=
        List.find?_cons_of_neg xs hxy
      rw [hstep]
      exact ih _ _ h
    · split at h
      · next hseen =>
        have hy := mem_dedupLimitSurv_not_seen _ _ _ _ h
        have hxy : ¬(x.response_uuid == y.response_uuid) = true := by
          simp only [beq_iff_eq]
          intro he
          rw [he] at hseen
          simp at hseen
          exact hy hseen
        have hstep : List.find? (fun z => z.response_uuid == y.response_uuid)
            (x :: xs) =
            List.find? (fun z => z.response_uuid == y.response_uuid) xs :=
          List.find?_cons_of_neg xs hxy
        rw [hstep]
        exact ih _ _ h
      · split at h
        · simp at h
          subst h
          exact List.find?_cons_of_pos xs (by simp)
        · rcases List.mem_cons.mp h with rfl | h2
          · exact List.find?_cons_of_pos xs (by simp)
          · have hy := mem_dedupLimitSurv_not_seen _ _ _ _ h2
            have hxy : ¬(x.response_uuid == y.response_uuid) = true := by
              simp only [beq_iff_eq]
              intro he
              exact hy (he ▸ List.mem_cons_self _ _)
            have hstep : List.find? (fun z => z.response_uuid == y.response_uuid)
                (x :: xs) =
                List.find? (fun z => z.response_uuid == y.response_uuid) xs :=
              List.find?_cons_of_neg xs hxy
            rw [hstep]
            exact ih _ _ h2

theorem fallbackSample_eq_take (k : Nat) (seen : List String)
    (l : List SurveyItem)
    (hnd : (l.map (fun y => y.response_uuid)).Nodup)
    (hdisj : ∀ y ∈ l, y.response_uuid ∉ seen) :
    fallbackSample k seen l = l.take k := by
  induction l generalizing k seen with
  | nil => simp [fallbackSample]
  | cons x xs ih =>
    rw [fallbackSample]
    by_cases hk : k = 0
    · subst hk
      simp
    · rw [if_neg hk]
      have hxseen : ¬seen.contains x.response_uuid = true := by
        simp only [List.elem_eq_mem, decide_eq_true_eq]
        exact hdisj x (List.mem_cons_self _ _)
      rw [if_neg hxseen]
      simp only [List.map_cons, List.nodup_cons] at hnd
      obtain ⟨k2, rfl⟩ : ∃ k2, k = k2 + 1 := ⟨k - 1, by omega⟩
      simp only [Nat.add_sub_cancel]
      rw [List.take_succ_cons]
      have hrec := ih k2 (x.response_uuid :: seen) hnd.2 ?_
      · rw [hrec]
      · intro y hy hmem
        rcases List.mem_cons.mp hmem with he | hseen2
        · exact hnd.1 (he ▸ List.mem_map_of_mem (fun z => z.response_uuid) hy)
        · exact hdisj y (List.mem_cons_of_mem _ hy) hseen2

theorem dedupLimitSurv_eq_take (b : Nat) (seen : List String)
    (l : List SurveyItem)
    (hne : ∀ y ∈ l, y.response_uuid ≠ "")
    (hnd : (l.map (fun y => y.response_uuid)).Nodup)
    (hdisj : ∀ y ∈ l, y.response_uuid ∉ seen) :
    dedupLimitSurv b seen l = l.take (max b 1) := by
  induction l generalizing b seen with
  | nil => simp [dedupLimitSurv]
  | cons x xs ih =>
    rw [dedupLimitSurv]
    rw [if_neg (hne x (List.mem_cons_self _ _))]
    have hxseen : ¬seen.contains x.response_uuid = true := by
      simp only [List.elem_eq_mem, decide_eq_true_eq]
      exact hdisj x (List.mem_cons_self _ _)
    rw [if_neg hxseen]
    simp only [List.map_cons, List.nodup_cons] at hnd
    split
    · next hb =>
      have hmax : max b 1 = 1 := by omega
      rw [hmax]
      simp
    · next hb =>
      have hrec := ih (b - 1) (x.response_uuid :: seen)
        (fun y hy => hne y (List.mem_cons_of_mem _ hy)) hnd.2 ?_
      · have hmax : max b 1 = (max (b - 1) 1) + 1 := by omega
        rw [hmax, List.take_succ_cons, hrec]
      · intro y hy hmem
        rcases List.mem_cons.mp hmem with he | hseen2
        · exact hnd.1 (he ▸ List.mem_map_of_mem (fun z => z.response_uuid) hy)
        · exact hdisj y (List.mem_cons_of_mem _ hy) hseen2

theorem survPreDedup_sparse (parseDt : String → Option Int) (now : Int)
    (surveys : List SurveyItem) (plan : SurvPlan)
    (hne : surveys ≠ [])
    (hsparse : ((plan.searchTerms.map (fun t =>
      semanticSearchBy surveyConcepts SurveyItem.searchable_text surveys t
        (survTermLimit plan))).flatten).length < 20)
    (htf : plan.timeFilters = "all") :
    survPreDedup parseDt now surveys plan =
      (fallbackSample (min plan.maxItems surveys.length) [] surveys, true,
        "Semantic search returned only " ++
          toString ((plan.searchTerms.map (fun t =>
            semanticSearchBy surveyConcepts SurveyItem.searchable_text surveys t
              (survTermLimit plan))).flatten).length ++
          " results, below minimum threshold") := by
  have hpos : 0 < surveys.length := List.length_pos.mpr hne
  simp only [survPreDedup, htf, ne_eq]
  simp [hsparse, hpos, -List.length_flatten]

/-! ### Claim C1 -/

/-- A two-item conversation corpus whose searchable texts do not contain the
query "xyzzyplugh" or any of its expanded terms. -/
def c1CorpusConv : List ConvItem :=
  [⟨"i1", "", "c", "v", ⟨some "CHAT_MESSAGE", some "hello there", none, none⟩⟩,
   ⟨"i2", "", "c", "v", ⟨some "EMAIL", some "more text", none, none⟩⟩]

/-- A plan whose single search term matches nothing in `c1CorpusConv`. -/
def c1Plan : RagPlan := ⟨["xyzzyplugh"], ["all"], "all", 50⟩

/-- C1 counterexample: the claim asserts the minimum-yield fallback for
EVERY retrieval call, but the conversation-path executor
(`RAGService._retrieve_data`) has no fallback at all: on a non-empty corpus
where per-term scored search retrieves 0 items (below the threshold of 20),
`retrieve()` returns the empty list instead of `min(maxItems, corpusSize)`
diversity-sampled items. -/
theorem C1_counterexample :
    ragRetrieveData (fun _ => none) 0 c1CorpusConv c1Plan = [] ∧
    c1CorpusConv ≠ [] ∧
    (ragRetrieveData (fun _ => none) 0 c1CorpusConv c1Plan).length ≠
      min c1Plan.maxItems c1CorpusConv.length := by
  decide

/-- C1 (amended): in the SURVEY retrieval path
(`SurvicateRAGService._retrieve_data`), for a non-empty corpus with distinct
non-empty response uuids and no time filter, whenever the total number of
items retrieved by per-term scored search falls below the fixed threshold
of 20 — sparse-but-nonzero retrievals included — `retrieve()` discards the
sparse result, diversity-samples the corpus in original order, and returns
exactly `min(maxItems, corpusSize)` items with `fallback_used = true` and
a fallback reason mentioning the threshold.  The conversation-path executor
has no such fallback (see the counterexample). -/
theorem C1_fallback_survey_amended (parseDt : String → Option Int) (now : Int)
    (surveys : List SurveyItem) (plan : SurvPlan)
    (hne : surveys ≠ [])
    (hsparse : ((plan.searchTerms.map (fun t =>
      semanticSearchBy surveyConcepts SurveyItem.searchable_text surveys t
        (survTermLimit plan))).flatten).length < 20)
    (hnd : (surveys.map (fun s => s.response_uuid)).Nodup)
    (hnu : ∀ s ∈ surveys, s.response_uuid ≠ "")
    (htf : plan.timeFilters = "all") :
    (survicateRetrieveData parseDt now surveys plan).fallbackUsed = true ∧
    isSubstr "threshold"
      (survicateRetrieveData parseDt now surveys plan).fallbackReason = true ∧
    (survicateRetrieveData parseDt now surveys plan).items.length =
      min plan.maxItems surveys.length := by
  have hpre := survPreDedup_sparse parseDt now surveys plan hne hsparse htf
  have hnotempty : surveys.isEmpty = false := List.isEmpty_eq_false.mpr hne
  have hitems : survicateRetrieveData parseDt now surveys plan =
      ⟨dedupLimitSurv plan.maxItems []
        (fallbackSample (min plan.maxItems surveys.length) [] surveys), true,
        "Semantic search returned only " ++
          toString ((plan.searchTerms.map (fun t =>
            semanticSearchBy surveyConcepts SurveyItem.searchable_text surveys t
              (survTermLimit plan))).flatten).length ++
          " results, below minimum threshold"⟩ := by
    rw [survicateRetrieveData]
    simp only [hnotempty, Bool.false_eq_true, if_false, hpre]
  rw [hitems]
  refine ⟨rfl, ?_, ?_⟩
  · show isSubstr "threshold"
      ("Semantic search returned only " ++
        toString ((plan.searchTerms.map (fun t =>
          semanticSearchBy surveyConcepts SurveyItem.searchable_text surveys t
            (survTermLimit plan))).flatten).length ++
        " results, below minimum threshold") = true
    exact isSubstr_threshold_reason _
  rw [fallbackSample_eq_take _ _ _ hnd (by simp)]
  rw [dedupLimitSurv_eq_take _ _ _ ?hne2 ?hnd2 (by simp)]
  case hne2 => exact fun y hy => hnu y (List.mem_of_mem_take hy)
  case hnd2 =>
    rw [List.map_take]
    exact List.Nodup.sublist (List.take_sublist _ _) hnd
  rw [List.length_take, List.length_take]
  omega

/-- A three-item survey corpus with distinct non-empty uuids; only the
first item matches the query "dog", so per-term retrieval is sparse
(1 item, below the threshold of 20) but non-zero. -/
def c1Surveys : List SurveyItem :=
  [⟨"u1", "", "my dog ran"⟩, ⟨"u2", "", "bbb"⟩, ⟨"u3", "", "ccc"⟩]

/-- The survey plan for the C1 witness: one sparsely-matching term,
maxItems 2. -/
def c1SurvPlan : SurvPlan := ⟨["dog"], "all", 2⟩

/-- Witness for `C1_fallback_survey_amended` at a concrete corpus and plan. -/
theorem C1_fallback_survey_witness :
    (survicateRetrieveData (fun _ => none) 0 c1Surveys c1SurvPlan).fallbackUsed
        = true ∧
    isSubstr "threshold"
      (survicateRetrieveData (fun _ => none) 0 c1Surveys
        c1SurvPlan).fallbackReason = true ∧
    (survicateRetrieveData (fun _ => none) 0 c1Surveys
      c1SurvPlan).items.length = min 2 3 :=
  C1_fallback_survey_amended (fun _ => none) 0 c1Surveys c1SurvPlan
    (by decide) (by decide) (by decide) (by decide) rfl

/-! ### Claim C2 -/

/-- C2 counterexample: with original query "charging", expanded term set
containing the stem "char" and an item whose searchable text is "charcoal",
the code (`scoreItem`, transcribing the scoring loop) awards 1 point — the
+2 tier is exact membership of the term in a concept's synonym list, which
fails for "char" — whereas the claim's substring-based +2 tier
(`claimTermPointsSub`, "char" is a substring of "charge" in the battery
concept) would award 2.  The claimed scoring formula therefore disagrees
with the code at this input. -/
theorem C2_counterexample :
    scoreItem conversationConcepts "charging" "charcoal" ["char"] = 1 ∧
    (["char"].map
      (claimTermPointsSub conversationConcepts "charging" "charcoal")).sum = 2 := by
  decide

/-- C2 (amended): an item's score is the sum over the expanded terms of the
tiered weights, where a term contributes only when the term and the
searchable text are non-empty and the term occurs as a substring of it, and
where the +2 tier fires when the term is EXACTLY one of the synonyms in any
concept's list (not a substring of one); and every item returned by the
semantic search has a positive score — score-0 items are excluded from the
candidates entirely. -/
theorem C2_scoring_amended (concepts : List (String × List String)) :
    (∀ queryLower searchable terms,
      scoreItem concepts queryLower searchable terms =
        (terms.map (claimTermPointsExact concepts queryLower searchable)).sum) ∧
    (∀ (α : Type) (f : α → String) (items : List α) (q : String) (lim : Nat)
      (it : α), it ∈ semanticSearchBy concepts f items q lim →
      0 < scoreItem concepts (pyLower q) (f it) (relatedTerms concepts q)) :=
  ⟨fun queryLower searchable terms =>
    scoreItem_eq_sum_claimExact concepts queryLower searchable terms,
   fun _ f items q lim it h => mem_semanticSearchBy_pos concepts f items q lim it h⟩

/-- A conversation item matching the query "battery", for the C2 witness. -/
def c2Item : ConvItem :=
  ⟨"i1", "", "c", "v", ⟨some "CHAT_MESSAGE", some "Battery good", none, none⟩⟩

/-- Witness for `C2_scoring_amended`: a concrete item returned by the
semantic search indeed has a positive score. -/
theorem C2_scoring_witness :
    0 < scoreItem conversationConcepts (pyLower "battery")
      (ConvItem.searchable_text c2Item)
      (relatedTerms conversationConcepts "battery") :=
  (C2_scoring_amended conversationConcepts).2 ConvItem ConvItem.searchable_text
    [c2Item] "battery" 1 c2Item (by decide)

/-! ### Claim C3 -/

/-- A survey item with an empty `response_uuid` matching both search terms
of `c3SurvPlan`. -/
def c3EmptyUuidItem : SurveyItem := ⟨"", "", "battery charge"⟩

/-- An eleven-item survey corpus — ten distinct non-empty uuids plus
`c3EmptyUuidItem` in front — where every item matches both "battery" and
"charge", so per-term retrieval yields 22 items and the minimum-yield
fallback does NOT fire. -/
def c3SurvCorpus : List SurveyItem :=
  [c3EmptyUuidItem,
   ⟨"u1", "", "battery charge"⟩, ⟨"u2", "", "battery charge"⟩,
   ⟨"u3", "", "battery charge"⟩, ⟨"u4", "", "battery charge"⟩,
   ⟨"u5", "", "battery charge"⟩, ⟨"u6", "", "battery charge"⟩,
   ⟨"u7", "", "battery charge"⟩, ⟨"u8", "", "battery charge"⟩,
   ⟨"u9", "", "battery charge"⟩, ⟨"u10", "", "battery charge"⟩]

/-- The survey plan for the C3 counterexample: two matching search terms. -/
def c3SurvPlan : SurvPlan := ⟨["battery", "charge"], "all", 30⟩

/-- C3 counterexample: the claim's "first occurrence in relevance order is
kept" clause fails in the survey executor for items with a falsy uuid: the
empty-uuid item appears (at least) twice in the pre-dedup candidate list —
once per search term, on the non-fallback path — yet NO occurrence of it
is kept: the final dedup loop drops falsy-uuid items outright instead of
keeping the first one. -/
theorem C3_counterexample :
    2 ≤ (survPreDedup (fun _ => none) 0 c3SurvCorpus c3SurvPlan).1.count
      c3EmptyUuidItem ∧
    (survicateRetrieveData (fun _ => none) 0 c3SurvCorpus
      c3SurvPlan).fallbackUsed = false ∧
    c3EmptyUuidItem ∉
      (survicateRetrieveData (fun _ => none) 0 c3SurvCorpus
        c3SurvPlan).items := by
  decide

/-- C3 (amended): deduplication invariant of the retrieval executors.
For every plan with positive `max_items`: the final list of
`RAGService._retrieve_data` has pairwise-distinct ids, at most `max_items`
elements, and each returned element is the FIRST element with its id in
the pre-dedup candidate list (first occurrence in relevance order wins);
the final list of `SurvicateRAGService._retrieve_data` has
pairwise-distinct uuids, at most `max_items` elements, and each RETURNED
element is the first element with its uuid in the pre-dedup candidate
list — but an item whose uuid is missing or empty is dropped outright
rather than deduplicated, so for such duplicates no occurrence at all is
kept (see the counterexample). -/
theorem C3_dedup_invariant :
    (∀ (parseTs : String → Option Int) (now : Int) (corpus : List ConvItem)
      (plan : RagPlan), 1 ≤ plan.maxItems →
      ((ragRetrieveData parseTs now corpus plan).map (fun y => y.id)).Nodup ∧
      (ragRetrieveData parseTs now corpus plan).length ≤ plan.maxItems ∧
      ∀ y ∈ ragRetrieveData parseTs now corpus plan,
        (ragPreDedup parseTs now corpus plan).find?
          (fun z => z.id == y.id) = some y) ∧
    (∀ (parseDt : String → Option Int) (now : Int) (surveys : List SurveyItem)
      (plan : SurvPlan), 1 ≤ plan.maxItems →
      ((survicateRetrieveData parseDt now surveys plan).items.map
        (fun y => y.response_uuid)).Nodup ∧
      (survicateRetrieveData parseDt now surveys plan).items.length ≤
        plan.maxItems ∧
      ∀ y ∈ (survicateRetrieveData parseDt now surveys plan).items,
        (survPreDedup parseDt now surveys plan).1.find?
          (fun z => z.response_uuid == y.response_uuid) = some y) := by
  constructor
  · intro parseTs now corpus plan hmax
    rw [ragRetrieveData]
    split
    · refine ⟨by simp, by simp, ?_⟩
      intro y hy
      simp at hy
    · refine ⟨dedupLimit_nodup _ _ _, ?_, ?_⟩
      · have hlen := dedupLimit_length plan.maxItems []
          (ragPreDedup parseTs now corpus plan)
        omega
      · intro y hy
        exact dedupLimit_find? _ _ _ _ hy
  · intro parseDt now surveys plan hmax
    rw [survicateRetrieveData]
    split
    · refine ⟨by simp, by simp, ?_⟩
      intro y hy
      simp at hy
    · refine ⟨dedupLimitSurv_nodup _ _ _, ?_, ?_⟩
      · show (dedupLimitSurv plan.maxItems []
          (survPreDedup parseDt now surveys plan).1).length ≤ plan.maxItems
        have hlen := dedupLimitSurv_length plan.maxItems []
          (survPreDedup parseDt now surveys plan).1
        omega
      · intro y hy
        exact dedupLimitSurv_find? _ _ _ _ hy

/-- A corpus with a duplicated id for the C3 witness. -/
def c3Corpus : List ConvItem :=
  [⟨"d", "", "c", "v", ⟨some "CHAT_MESSAGE", some "battery", none, none⟩⟩,
   ⟨"d", "", "c", "v", ⟨some "CHAT_MESSAGE", some "battery x", none, none⟩⟩]

/-- The plan for the C3 witness. -/
def c3Plan : RagPlan := ⟨["battery"], ["all"], "all", 5⟩

/-- Witness for `C3_dedup_invariant`: the conversation conjunct at a
concrete corpus containing two items with the same id, and the survey
conjunct at the concrete corpus of the counterexample. -/
theorem C3_dedup_witness :
    (((ragRetrieveData (fun _ => none) 0 c3Corpus c3Plan).map
      (fun y => y.id)).Nodup ∧
    (ragRetrieveData (fun _ => none) 0 c3Corpus c3Plan).length ≤
      c3Plan.maxItems ∧
    ∀ y ∈ ragRetrieveData (fun _ => none) 0 c3Corpus c3Plan,
      (ragPreDedup (fun _ => none) 0 c3Corpus c3Plan).find?
        (fun z => z.id == y.id) = some y) ∧
    (((survicateRetrieveData (fun _ => none) 0 c3SurvCorpus
        c3SurvPlan).items.map (fun y => y.response_uuid)).Nodup ∧
    (survicateRetrieveData (fun _ => none) 0 c3SurvCorpus
      c3SurvPlan).items.length ≤ c3SurvPlan.maxItems ∧
    ∀ y ∈ (survicateRetrieveData (fun _ => none) 0 c3SurvCorpus
        c3SurvPlan).items,
      (survPreDedup (fun _ => none) 0 c3SurvCorpus c3SurvPlan).1.find?
        (fun z => z.response_uuid == y.response_uuid) = some y) :=
  ⟨C3_dedup_invariant.1 (fun _ => none) 0 c3Corpus c3Plan (by decide),
   C3_dedup_invariant.2 (fun _ => none) 0 c3SurvCorpus c3SurvPlan (by decide)⟩

/-! ### Claim C4 -/

/-- Timestamp parser for the C4 counterexample: only the literal "RECENT"
parses (to instant 1000). -/
def c4ParseTs : String → Option Int :=
  fun s => if s = "RECENT" then some 1000 else none

/-- A conversation item with a recent, parsable timestamp. -/
def c4ItemR : ConvItem :=
  ⟨"r", "RECENT", "c", "v", ⟨some "CHAT_MESSAGE", some "alpha", none, none⟩⟩

/-- A conversation item with a missing timestamp. -/
def c4ItemN : ConvItem :=
  ⟨"n", "", "c", "v", ⟨some "CHAT_MESSAGE", some "alpha", none, none⟩⟩

/-- The plan for the C4 counterexample: time filter last_7_days. -/
def c4Plan : RagPlan := ⟨["alpha"], ["all"], "last_7_days", 10⟩

/-- C4 counterexample: in the conversation path
(`RAGService._retrieve_data` with `ConversationService
.get_recent_conversations`), an item with a MISSING timestamp is dropped by
the `last_7_days` time filter whenever some corpus item has a recent
parsable timestamp: both items match the query, but only the
recently-timestamped one survives, contradicting the claim that
missing-timestamp items are never dropped by a time filter. -/
theorem C4_counterexample :
    ragRetrieveData c4ParseTs 1000 [c4ItemR, c4ItemN] c4Plan = [c4ItemR] ∧
    c4ItemN ∉ ragRetrieveData c4ParseTs 1000 [c4ItemR, c4ItemN] c4Plan := by
  decide

/-- C4 (amended): in the SURVEY retrieval path, the time-filter step keeps
every item whose `date_time` is missing (falsy) or unparsable — the filter
predicate `keepByTime` evaluates to true on such items, so filtering any
candidate list retains them.  In the conversation path the analogous
tolerance does not hold (see the counterexample): its filter keeps only
ids of corpus items with recent parsable timestamps, unless no corpus item
is recent at all, in which case the filter is skipped. -/
theorem C4_timestamp_tolerance_amended (parseDt : String → Option Int)
    (cutoff : Int) (it : SurveyItem) (l : List SurveyItem)
    (h : it.date_time = "" ∨ parseDt it.date_time = none) :
    keepByTime parseDt cutoff it = true ∧
    (it ∈ l → it ∈ l.filter (fun x => keepByTime parseDt cutoff x)) := by
  have hk : keepByTime parseDt cutoff it = true := by
    rw [keepByTime]
    rcases h with h | h
    · rw [if_neg (by simp [h])]
    · by_cases hdt : it.date_time ≠ ""
      · rw [if_pos hdt, h]
      · rw [if_neg hdt]
  exact ⟨hk, fun hm => List.mem_filter.mpr ⟨hm, hk⟩⟩

/-- Witness for `C4_timestamp_tolerance_amended`: a survey item with an
empty `date_time` is kept by the time filter. -/
theorem C4_timestamp_witness :
    keepByTime (fun _ => none) 0 ⟨"u1", "", "text"⟩ = true ∧
    ((⟨"u1", "", "text"⟩ : SurveyItem) ∈ ([⟨"u1", "", "text"⟩] : List SurveyItem) →
      (⟨"u1", "", "text"⟩ : SurveyItem) ∈
        ([⟨"u1", "", "text"⟩] : List SurveyItem).filter
          (fun x => keepByTime (fun _ => none) 0 x)) :=
  C4_timestamp_tolerance_amended (fun _ => none) 0 ⟨"u1", "", "text"⟩
    [⟨"u1", "", "text"⟩] (Or.inl rfl)

/-! ### Claim C5 -/

/-- C5: planner fallback.  For every planning failure — the LLM call
raising, the response text containing no extractable brace-delimited JSON
object, or the extracted object missing one of the five required keys —
`RAGService._plan_query` returns exactly the deterministic fallback plan
(`search_terms = [question]`, the default chat-like content types,
`time_filters = "all"`, `max_items = 100`,
`analysis_focus = "general analysis"`).  `plan_query` is a total function,
so no failure ever propagates to the caller. -/
theorem C5_planner_fallback
    (parse : String → Option (List (String × Json)))
    (question : String) (llm : Except String String)
    (h : (∃ e, llm = Except.error e) ∨
      (∃ t, llm = Except.ok t ∧ extract_json_from_text parse t = none) ∨
      (∃ t kvs, llm = Except.ok t ∧ extract_json_from_text parse t = some kvs ∧
        ¬requiredPlanKeys.all
          (fun k => (kvs.find? (fun kv => kv.1 == k)).isSome) = true)) :
    plan_query parse llm question = fallbackPlan question := by
  rcases h with ⟨e, rfl⟩ | ⟨t, rfl, hext⟩ | ⟨t, kvs, rfl, hext, hkeys⟩
  · rfl
  · simp only [plan_query, hext]
  · simp only [plan_query, hext]
    by_cases hempty : kvs.isEmpty = true
    · rw [if_pos hempty]
    · rw [if_neg hempty, if_neg hkeys]

/-- Witness for `C5_planner_fallback`: prose with no JSON object falls back. -/
theorem C5_planner_witness :
    plan_query (fun _ => none) (Except.ok "The plan is coming right up") "q" =
      fallbackPlan "q" :=
  C5_planner_fallback (fun _ => none) "q"
    (Except.ok "The plan is coming right up")
    (Or.inr (Or.inl ⟨"The plan is coming right up", rfl, rfl⟩))

/-! ### Claim C6 -/

/-- A one-item corpus matching "battery", for the C6 counterexample. -/
def c6Corpus : List ConvItem :=
  [⟨"i1", "", "c", "v", ⟨some "CHAT_MESSAGE", some "Battery good", none, none⟩⟩]

/-- A plan with more search terms (3) than maxItems (2). -/
def c6Plan : RagPlan := ⟨["battery", "gps", "app"], ["all"], "all", 2⟩

/-- C6 counterexample: the conversation-path executor uses the plain floor
`max_items // len(search_terms)` with NO lower bound of 1: with
`maxItems = 2` and three search terms the per-term budget is 0, and
retrieval returns nothing even though the corpus item matches the term
"battery" (a budget of 1 would have returned it). -/
theorem C6_counterexample :
    convTermLimit c6Plan = 0 ∧
    ragRetrieveData (fun _ => none) 0 c6Corpus c6Plan = [] ∧
    semanticSearchBy conversationConcepts ConvItem.searchable_text c6Corpus
      "battery" 1 ≠ [] := by
  decide

/-- C6 (amended): only the SURVEY retrieval path clamps the per-term budget
to at least 1 (`max(1, maxItems // max(|terms|, 1))`); the conversation
path takes the plain floor `maxItems // |terms|`, which is 0 whenever
`maxItems < |terms|`, so matching terms can contribute nothing there. -/
theorem C6_per_term_budget_amended :
    (∀ plan : SurvPlan, 1 ≤ survTermLimit plan) ∧
    (∀ plan : RagPlan, plan.maxItems < plan.searchTerms.length →
      convTermLimit plan = 0) := by
  constructor
  · intro plan
    rw [survTermLimit]
    exact Nat.le_max_left 1 _
  · intro plan h
    rw [convTermLimit]
    exact Nat.div_eq_of_lt h

/-- Witness for `C6_per_term_budget_amended` at concrete plans. -/
theorem C6_budget_witness :
    1 ≤ survTermLimit ⟨["a", "b", "c"], "all", 2⟩ ∧
    convTermLimit c6Plan = 0 :=
  ⟨C6_per_term_budget_amended.1 ⟨["a", "b", "c"], "all", 2⟩,
   C6_per_term_budget_amended.2 c6Plan (by decide)⟩

/-! ### Claim C7 -/

/-- Three successive attempts all failing with an `HTTPError` whose
response carries status code 429 but whose message text ("boom") contains
none of the string markers `429` / `rate_limit` / `Too Many Requests`. -/
def c7Script : List Attempt :=
  [Attempt.httpErr (some 429) "boom", Attempt.httpErr (some 429) "boom",
   Attempt.httpErr (some 429) "boom"]

/-- The message `extract_conversation_metadata` raises after exhausting the
retries on `c7Script`. -/
def c7RaisedMsg : String :=
  "Rate limit exceeded. Claude API is rate limiting requests. Please wait 1-2 minutes and try again. Details: boom"

/-- C7 as a code bug, evaluated at the failing input: with the default
`max_retries = 3`, a conversation whose LLM attempts all hit a rate limit
recognized by STATUS CODE only is retried with exponential backoff
(waits `min(2^0, 60) = 1` and `min(2^1, 60) = 2` seconds) and then raises
the distinct rate-limit message — all as the claim says — but the message
carries none of the markers the batch driver greps for
(`rlMarkers c7RaisedMsg = false`; note `'rate_limit' ∉ "rate limiting"`),
so `batch_extract_topics` treats the error as a PER-ITEM failure: it
records the default "Other" metadata for that conversation and CONTINUES
the batch instead of stopping it. -/
theorem C7_rate_limit_bug :
    extractMeta 3 "Other" c7Script = (MetaResult.err c7RaisedMsg, [1, 2]) ∧
    rlMarkers c7RaisedMsg = false ∧
    batchExtract 3 [("c1", "Other", [Attempt.ok defaultTopicMeta]),
        ("c2", "Other", c7Script)] =
      ⟨[("c1", defaultTopicMeta), ("c2", defaultTopicMeta)], none, 1, 1⟩ := by
  decide

/-! ### Claim C8 -/

/-- C8 counterexample: the claim says topic validation uses substring
fallback matching, but `_validate_topic` has none: "gps" — a substring of
the canonical "GPS and Location Accuracy Issues" (which the claim's
substring matching, `validate_topic_claim`, resolves) — is mapped to
"Other" by the code. -/
theorem C8_counterexample :
    validate_topic "gps" = "Other" ∧
    validate_topic_claim "gps" = "GPS and Location Accuracy Issues" := by
  decide

/-- C8 (amended): `_validate_topic` normalizes a topic label against the
fixed taxonomy by exact membership and then CASE-INSENSITIVE EXACT
matching only (no substring fallback); any label with no case-insensitive
exact match resolves to "Other" without raising.  In particular
"gps and location accuracy issues" normalizes to the canonical
"GPS and Location Accuracy Issues", and "banana" to "Other". -/
theorem C8_taxonomy_amended :
    validate_topic "gps and location accuracy issues" =
      "GPS and Location Accuracy Issues" ∧
    validate_topic "banana" = "Other" ∧
    ∀ t : String,
      CONVERSATION_TOPICS.all (fun v => !(pyLower v == pyLower t)) = true →
      validate_topic t = "Other" := by
  refine ⟨by decide, by decide, ?_⟩
  intro t ht
  rw [List.all_eq_true] at ht
  rw [validate_topic]
  by_cases h0 : t = ""
  · rw [if_pos h0]
  · rw [if_neg h0]
    have hmem : ¬CONVERSATION_TOPICS.contains t = true := by
      simp only [List.elem_eq_mem, decide_eq_true_eq]
      intro hm
      have hc := ht t hm
      simp at hc
    rw [if_neg hmem]
    have hfind : CONVERSATION_TOPICS.find?
        (fun v => pyLower v == pyLower t) = none := by
      rw [List.find?_eq_none]
      intro v hv
      have hc := ht v hv
      simp only [Bool.not_eq_eq_eq_not, Bool.not_true] at hc
      simp [hc]
    rw [hfind]

/-- Witness for `C8_taxonomy_amended`: "banana" has no case-insensitive
exact match in the taxonomy, so it resolves to "Other". -/
theorem C8_taxonomy_witness : validate_topic "banana" = "Other" :=
  C8_taxonomy_amended.2.2 "banana" (by decide)

/-! ### Helper lemmas about the dict operations of the topic store -/

theorem dictHas_dictSet_self (kvs : List (String × Json)) (k : String)
    (v : Json) : dictHas (dictSet kvs k v) k = true := by
  rw [dictSet]
  split
  · next h =>
    rw [dictHas, List.any_eq_true] at h ⊢
    obtain ⟨kv, hkv, hk⟩ := h
    exact ⟨(k, v), List.mem_map.mpr ⟨kv, hkv, by rw [if_pos hk]⟩, by simp⟩
  · rw [dictHas, List.any_eq_true]
    exact ⟨(k, v), by simp, by simp⟩

theorem dictHas_dictSet_of_has (kvs : List (String × Json)) (k k2 : String)
    (v : Json) (h : dictHas kvs k2 = true) :
    dictHas (dictSet kvs k v) k2 = true := by
  rw [dictSet]
  split
  · rw [dictHas, List.any_eq_true] at h ⊢
    obtain ⟨kv, hkv, hk2⟩ := h
    by_cases hk : (kv.1 == k) = true
    · refine ⟨(k, v), List.mem_map.mpr ⟨kv, hkv, by rw [if_pos hk]⟩, ?_⟩
      have e1 := eq_of_beq hk
      have e2 := eq_of_beq hk2
      simp [← e1, e2]
    · exact ⟨kv, List.mem_map.mpr ⟨kv, hkv, by rw [if_neg hk]⟩, hk2⟩
  · rw [dictHas, List.any_eq_true] at h ⊢
    obtain ⟨kv, hkv, hk2⟩ := h
    exact ⟨kv, by simp [hkv], hk2⟩

theorem dictHas_dictDel_of_has (kvs : List (String × Json)) (k k2 : String)
    (hne : (k2 == k) = false) (h : dictHas kvs k2 = true) :
    dictHas (dictDel kvs k) k2 = true := by
  rw [dictDel]
  rw [dictHas, List.any_eq_true] at h ⊢
  obtain ⟨kv, hkv, hk2⟩ := h
  refine ⟨kv, List.mem_filter.mpr ⟨hkv, ?_⟩, hk2⟩
  have e2 := eq_of_beq hk2
  rw [e2]
  simp [hne]

theorem dictHas_ensureKey_self (kvs : List (String × Json)) (k : String) :
    dictHas (ensureKey kvs k) k = true := by
  rw [ensureKey]
  split
  · assumption
  · exact dictHas_dictSet_self kvs k Json.null

theorem dictHas_ensureKey_of_has (kvs : List (String × Json)) (k k2 : String)
    (h : dictHas kvs k2 = true) : dictHas (ensureKey kvs k) k2 = true := by
  rw [ensureKey]
  split
  · exact h
  · exact dictHas_dictSet_of_has kvs k k2 Json.null h

theorem dictHas_migrate_of_has (kvs : List (String × Json)) (k2 : String)
    (hne : (k2 == "product_version") = false) (h : dictHas kvs k2 = true) :
    dictHas (migrateProductVersion kvs) k2 = true := by
  rw [migrateProductVersion]
  split
  · apply dictHas_dictDel_of_has _ _ _ hne
    split
    · exact dictHas_dictSet_of_has _ _ _ _ h
    · exact h
  · exact h

/-! ### Claim C9 -/

/-- A persisted store holding a legacy bare-string topic record. -/
def c9LegacyStore : List (String × List (String × TopicVal)) :=
  [("2025-01-01", [("c1", TopicVal.str "Other")])]

/-- C9 counterexample: `get_topics_for_date` returns the per-date mapping
exactly as persisted — a legacy bare-string value is handed to the reader
UNUPGRADED, so readers of the loaded mapping do observe bare strings,
contradicting the claimed load-time upgrade invariant. -/
theorem C9_counterexample :
    get_topics_for_date c9LegacyStore "2025-01-01" =
      some [("c1", TopicVal.str "Other")] ∧
    isFullRecordVal (TopicVal.str "Other") = false :=
  ⟨rfl, rfl⟩

/-- C9 (amended): the legacy-format upgrade happens at SAVE time, not load
time.  `save_topics_for_date` (and `add_topic_for_date`) normalize every
bare-string value into the full record shape — containing the keys topic,
sentiment, customer_sentiment, key_phrases and extracted_at (plus the four
device fields) with the string as the topic — and default `extracted_at`
on every dict value; `get_topics_for_date` performs no upgrade, so readers
of a loaded mapping can still observe legacy bare strings (see the
counterexample). -/
theorem C9_upgrade_on_save_amended :
    (∀ s, normalizeEntry (TopicVal.str s) = upgradedStringRecord s ∧
      recordShapeKeys.all
        (fun k => dictHas (normalizeEntry (TopicVal.str s)) k) = true) ∧
    (∀ v, dictHas (normalizeEntry v) "extracted_at" = true) ∧
    (∀ (mapping : List (String × TopicVal)) (cid s : String),
      (cid, TopicVal.str s) ∈ mapping →
      (cid, upgradedStringRecord s) ∈ saveTopicsNormalize mapping) := by
  refine ⟨fun s => ⟨rfl, rfl⟩, ?_, ?_⟩
  · intro v
    cases v with
    | str s => rfl
    | dict kvs =>
      rw [normalizeEntry]
      apply dictHas_ensureKey_of_has
      apply dictHas_ensureKey_of_has
      apply dictHas_ensureKey_of_has
      apply dictHas_ensureKey_of_has
      apply dictHas_migrate_of_has _ _ (by decide)
      exact dictHas_ensureKey_self kvs "extracted_at"
  · intro mapping cid s hm
    rw [saveTopicsNormalize]
    exact List.mem_map_of_mem _ hm

/-! ### Claim C10 -/

/-- C10: every item in the final list of
`SurvicateRAGService._retrieve_data` has a non-empty `response_uuid` — the
final dedup loop (`if response_uuid and response_uuid not in seen_uuids`)
drops items with a falsy uuid outright, on every path including the
diversity-fallback sample. -/
theorem C10_nonempty_uuid (parseDt : String → Option Int) (now : Int)
    (surveys : List SurveyItem) (plan : SurvPlan) (y : SurveyItem)
    (h : y ∈ (survicateRetrieveData parseDt now surveys plan).items) :
    y.response_uuid ≠ "" := by
  rw [survicateRetrieveData] at h
  split at h
  · simp at h
  · exact mem_dedupLimitSurv_ne_empty _ _ _ _ h

/-- A one-item survey corpus for the C10 witness. -/
def c10Surveys : List SurveyItem := [⟨"u1", "", "battery broke"⟩]

/-- Witness for `C10_nonempty_uuid`: a concrete retrieved item has a
non-empty uuid. -/
theorem C10_nonempty_uuid_witness :
    (⟨"u1", "", "battery broke"⟩ : SurveyItem).response_uuid ≠ "" :=
  C10_nonempty_uuid (fun _ => none) 0 c10Surveys ⟨["battery"], "all", 5⟩
    ⟨"u1", "", "battery broke"⟩ (by decide)

/-- Witness for `C9_upgrade_on_save_amended`: saving a mapping holding a
bare-string record produces the upgraded full record. -/
theorem C9_upgrade_on_save_witness :
    ("c1", upgradedStringRecord "Other") ∈
      saveTopicsNormalize [("c1", TopicVal.str "Other")] :=
  C9_upgrade_on_save_amended.2.2 [("c1", TopicVal.str "Other")] "c1" "Other"
    (List.mem_singleton.mpr rfl)
